import Mathlib

/-!
A verification development for the SIH traceability repository's two ML
pipelines, written against the Python sources:

* `counterfeit_detection_ml/src/preprocess.py` — scan-log preprocessing
  (`preprocess_scan_logs`): stable sort by `(batch_id, timestamp)`,
  per-batch previous-scan interval with NaN fill, per-batch previous-scan
  distance, retailer registration flag.
* `harvest_anomaly_detection/src/rules.py` — `rule_based_anomalies_weekly`.
* `harvest_anomaly_detection/src/anomaly_detection.py` —
  `detect_weekly_anomalies`: weekly aggregation, rule layer, Isolation
  Forest layer, final OR fusion.
* `harvest_anomaly_detection/src/evaluate.py` — `evaluate_model` metrics.
* `harvest_anomaly_detection/scripts/train_model.py` — the contamination
  formula.

Machine floats are modelled as `ℚ`; a pandas NaN-able column is modelled
as `Option ℚ` (`none` = NaN).  The geodesic distance and the Isolation
Forest predictor are opaque numeric capabilities and are taken as
parameters, since no verified property depends on their values.
-/

namespace SIH

/-- One row of the scan-log CSV read by `preprocess_scan_logs`
(`counterfeit_detection_ml/src/preprocess.py`).  `timestamp` is in seconds
(the source divides timestamp deltas by 3600 to get hours); ids are
abstracted to `ℕ`, the retailer id keeps its string form because the source
compares it against the literal list `["R1", ..., "R5"]`. -/
structure ScanRow where
  batch_id : ℕ
  timestamp : ℚ
  lat : ℚ
  lon : ℚ
  retailer_id : String
deriving DecidableEq

/-- The sort key of `df.sort_values(['batch_id', 'timestamp'])`:
lexicographic on (batch, timestamp). -/
def scanKey (r : ScanRow) : ℕ ×ₗ ℚ := toLex (r.batch_id, r.timestamp)

/-- The (total, transitive) order used by the sort. -/
def scanLE (a b : ScanRow) : Prop := scanKey a ≤ scanKey b

instance : DecidableRel scanLE :=
  fun a b => inferInstanceAs (Decidable (scanKey a ≤ scanKey b))

instance : IsTotal ScanRow scanLE := ⟨fun a b => le_total (scanKey a) (scanKey b)⟩

instance : IsTrans ScanRow scanLE := ⟨fun _ _ _ h h' => le_trans h h'⟩

/-- `df = df.sort_values(['batch_id', 'timestamp'])`.  With several sort
keys pandas lexsorts, which is a stable sort; insertion sort is stable, so
it is a faithful model. -/
def sortScans (df : List ScanRow) : List ScanRow := List.insertionSort scanLE df

/-- `df.groupby('batch_id')['timestamp'].shift(1)`: each row is paired with
the timestamp of the nearest preceding row of the same batch (in the current
row order), `none` when there is none.  `seen` carries the last timestamp
seen so far for each batch. -/
def addPrevTime (seen : ℕ → Option ℚ) : List ScanRow → List (ScanRow × Option ℚ)
  | [] => []
  | r :: rs =>
      (r, seen r.batch_id) ::
        addPrevTime (fun b => if b = r.batch_id then some r.timestamp else seen b) rs

/-- The sorted scan list annotated with the `prev_time` column. -/
def withPrev (df : List ScanRow) : List (ScanRow × Option ℚ) :=
  addPrevTime (fun _ => none) (sortScans df)

/-- `(df['timestamp'] - df['prev_time']).dt.total_seconds() / 3600`:
NaN (`none`) exactly when `prev_time` is NaN. -/
def rawInterval (r : ScanRow) (prev_time : Option ℚ) : Option ℚ :=
  prev_time.map (fun p => (r.timestamp - p) / 3600)

/-- `df['scan_interval_hours'].max()`: pandas `max` skips NaN entries and
returns NaN (`none`) when every entry is NaN. -/
def globalMaxInterval (df : List ScanRow) : Option ℚ :=
  ((withPrev df).filterMap (fun x => rawInterval x.1 x.2)).max?

/-- The `compute_distance` closure of `preprocess_scan_logs`: `0` when
`prev_time` is NaN, otherwise the geodesic distance to the first row of the
(sorted) frame with the same batch and that timestamp.  The `.iloc[0]` of
the source raises on an empty match; that fallible access is modelled by
`Option` (`none` = IndexError). -/
def compute_distance (dist : ℚ × ℚ → ℚ × ℚ → ℚ) (df : List ScanRow)
    (row : ScanRow) (prev_time : Option ℚ) : Option ℚ :=
  match prev_time with
  | none => some 0
  | some p =>
      match df.find? (fun q => q.batch_id == row.batch_id && q.timestamp == p) with
      | some prev => some (dist (row.lat, row.lon) (prev.lat, prev.lon))
      | none => none

/-- `registered_retailers = ["R1", "R2", "R3", "R4", "R5"]`. -/
def registered_retailers : List String := ["R1", "R2", "R3", "R4", "R5"]

/-- One output row of `preprocess_scan_logs` (the selected columns).
`scan_interval_hours` stays NaN-able: the fill value itself is NaN when no
interval at all is defined. -/
structure OutRow where
  lat : ℚ
  lon : ℚ
  scan_interval_hours : Option ℚ
  distance_km : Option ℚ
  retailer_type : ℕ
  batch_id : ℕ
deriving DecidableEq

/-- Assembles one output row from an annotated row, given the sorted frame
and the global fill value: `fillna(max)` replaces a NaN interval by the
global maximum, `compute_distance` fills the distance column, and
`retailer_type` flags membership in `registered_retailers`. -/
def mkOutRow (dist : ℚ × ℚ → ℚ × ℚ → ℚ) (sorted : List ScanRow)
    (gmax : Option ℚ) (x : ScanRow × Option ℚ) : OutRow :=
  { lat := x.1.lat
    lon := x.1.lon
    scan_interval_hours :=
      match rawInterval x.1 x.2 with
      | some v => some v
      | none => gmax
    distance_km := compute_distance dist sorted x.1 x.2
    retailer_type := if x.1.retailer_id ∈ registered_retailers then 1 else 0
    batch_id := x.1.batch_id }

/-- `preprocess_scan_logs` of `counterfeit_detection_ml/src/preprocess.py`,
parameterised by the geodesic distance function. -/
def preprocess_scan_logs (dist : ℚ × ℚ → ℚ × ℚ → ℚ) (df : List ScanRow) :
    List OutRow :=
  (withPrev df).map (mkOutRow dist (sortScans df) (globalMaxInterval df))

/-- The defined (non-NaN) raw intervals of the rows of batch `b`:
what "the maximum interval observed in that partition" ranges over. -/
def partitionIntervals (df : List ScanRow) (b : ℕ) : List ℚ :=
  ((withPrev df).filter (fun x => x.1.batch_id == b)).filterMap
    (fun x => rawInterval x.1 x.2)

/-- Per-partition maximum interval (NaN when the partition has none). -/
def partitionMaxInterval (df : List ScanRow) (b : ℕ) : Option ℚ :=
  (partitionIntervals df b).max?

/-- Unfolds the sort order to its components, for concrete evaluation. -/
lemma scanLE_iff (a b : ScanRow) :
    scanLE a b ↔
      a.batch_id < b.batch_id ∨ (a.batch_id = b.batch_id ∧ a.timestamp ≤ b.timestamp) := by
  unfold scanLE scanKey
  exact Prod.Lex.le_iff _ _

/-- Two batches: batch 1 with a 10-hour gap, batch 2 with a 2-hour gap. -/
def twoBatchScans : List ScanRow :=
  [⟨1, 0, 10, 20, "R1"⟩, ⟨1, 36000, 11, 21, "R2"⟩,
   ⟨2, 0, 30, 40, "R9"⟩, ⟨2, 7200, 31, 41, "R9"⟩]

example :
    (preprocess_scan_logs (fun _ _ => 0) twoBatchScans).map
      (fun r => (r.batch_id, r.scan_interval_hours)) =
      [(1, some 10), (1, some 10), (2, some 10), (2, some 2)] := by
  norm_num [preprocess_scan_logs, withPrev, sortScans, List.insertionSort,
    List.orderedInsert, scanLE_iff, addPrevTime, globalMaxInterval, rawInterval,
    mkOutRow, compute_distance, List.max?, List.filterMap, Option.map,
    List.foldl, max_def, registered_retailers, twoBatchScans]

/-- Every annotated row whose `prev_time` is defined points back at a row of
the frame it was derived from: the invariant that makes the `.iloc[0]` of
`compute_distance` safe. -/
lemma addPrevTime_prev_mem (S : List ScanRow) :
    ∀ (l : List ScanRow) (seen : ℕ → Option ℚ),
      (∀ b p, seen b = some p → ∃ q ∈ S, q.batch_id = b ∧ q.timestamp = p) →
      (∀ q ∈ l, q ∈ S) →
      ∀ x ∈ addPrevTime seen l, ∀ p, x.2 = some p →
        ∃ q ∈ S, q.batch_id = x.1.batch_id ∧ q.timestamp = p := by
  intro l
  induction l with
  | nil => intro seen _ _ x hx; simp [addPrevTime] at hx
  | cons r rs ih =>
    intro seen hseen hsub x hx p hp
    rw [addPrevTime] at hx
    rcases List.mem_cons.mp hx with rfl | hx
    · exact hseen _ _ hp
    · refine ih (fun b => if b = r.batch_id then some r.timestamp else seen b)
        ?_ (fun q hq => hsub q (List.mem_cons_of_mem _ hq)) x hx p hp
      intro b p' hbp'
      by_cases hb : b = r.batch_id
      · refine ⟨r, hsub r (List.mem_cons_self _ _), hb.symm, ?_⟩
        simp [hb] at hbp'
        exact hbp'
      · simp [hb] at hbp'
        exact hseen b p' hbp'

/-- `distance_km` is never NaN in the output: the row either has no
predecessor (distance `0`) or its `prev_time` names an existing row, so the
`.iloc[0]` lookup succeeds. -/
lemma preprocess_distance_ne_none (dist : ℚ × ℚ → ℚ × ℚ → ℚ)
    (df : List ScanRow) :
    ∀ r ∈ preprocess_scan_logs dist df, r.distance_km ≠ none := by
  intro r hr
  unfold preprocess_scan_logs at hr
  rcases List.mem_map.mp hr with ⟨x, hx, rfl⟩
  show (compute_distance dist (sortScans df) x.1 x.2) ≠ none
  cases hpt : x.2 with
  | none => simp [compute_distance, hpt]
  | some p =>
    have hmem : ∃ q ∈ sortScans df, q.batch_id = x.1.batch_id ∧ q.timestamp = p :=
      addPrevTime_prev_mem (sortScans df) (sortScans df) (fun _ => none)
        (by simp) (fun q h => h) x hx p hpt
    obtain ⟨q, hq, hb, ht⟩ := hmem
    have hfind :
        (((sortScans df).find?
          (fun q' => q'.batch_id == x.1.batch_id && q'.timestamp == p))).isSome :=
      List.find?_isSome.mpr ⟨q, hq, by simp [hb, ht]⟩
    obtain ⟨prev, hprev⟩ := Option.isSome_iff_exists.mp hfind
    simp [compute_distance, hpt, hprev]

/-- When at least one row has a predecessor, the global `fillna` value is
defined and `scan_interval_hours` is never NaN in the output. -/
lemma preprocess_interval_ne_none (dist : ℚ × ℚ → ℚ × ℚ → ℚ)
    (df : List ScanRow) (h : ∃ x ∈ withPrev df, x.2 ≠ none) :
    ∀ r ∈ preprocess_scan_logs dist df, r.scan_interval_hours ≠ none := by
  obtain ⟨x0, hx0, hpt⟩ := h
  have hg : globalMaxInterval df ≠ none := by
    unfold globalMaxInterval
    rw [Ne, List.max?_eq_none_iff]
    cases h0 : x0.2 with
    | none => exact absurd h0 hpt
    | some p =>
      intro hnil
      have hm : ((x0.1.timestamp - p) / 3600) ∈
          (withPrev df).filterMap (fun x => rawInterval x.1 x.2) :=
        List.mem_filterMap.mpr ⟨x0, hx0, by simp [rawInterval, h0]⟩
      rw [hnil] at hm
      simp at hm
  intro r hr
  unfold preprocess_scan_logs at hr
  rcases List.mem_map.mp hr with ⟨x, hx, rfl⟩
  show (match rawInterval x.1 x.2 with
        | some v => some v
        | none => globalMaxInterval df) ≠ none
  cases hri : rawInterval x.1 x.2 with
  | some v => simp
  | none => simpa using hg

/-- C1, counterexample.  On `twoBatchScans` the partition of batch 2 has
maximum observed interval 2 h, yet its first record's filled
`scan_interval_hours` is 10 h — the fill value is the maximum over the whole
frame (`df['scan_interval_hours'].max()` before `fillna`), taken here from
batch 1's partition, refuting "not a value taken from other partitions". -/
theorem fillna_partition_max_counterexample :
    partitionMaxInterval twoBatchScans 2 = some 2 ∧
    (preprocess_scan_logs (fun _ _ => 0) twoBatchScans).map
      (fun r => (r.batch_id, r.scan_interval_hours)) =
      [(1, some 10), (1, some 10), (2, some 10), (2, some 2)] := by
  constructor
  · norm_num [partitionMaxInterval, partitionIntervals, withPrev, sortScans,
      List.insertionSort, List.orderedInsert, scanLE_iff, addPrevTime,
      rawInterval, List.max?, List.filterMap, List.filter, Option.map,
      List.foldl, max_def, twoBatchScans]
  · norm_num [preprocess_scan_logs, withPrev, sortScans, List.insertionSort,
      List.orderedInsert, scanLE_iff, addPrevTime, globalMaxInterval,
      rawInterval, mkOutRow, compute_distance, List.max?, List.filterMap,
      Option.map, List.foldl, max_def, registered_retailers, twoBatchScans]

/-- C1, amended: every record whose interval is undefined by subtraction
(no predecessor in its partition) has `scan_interval_hours` replaced by the
maximum interval observed over the **entire input** (all partitions
together), which is what `fillna(df['scan_interval_hours'].max())`
computes. -/
theorem fillna_is_global_max (dist : ℚ × ℚ → ℚ × ℚ → ℚ) (df : List ScanRow)
    (i : ℕ) (h : i < (withPrev df).length)
    (hnone : rawInterval ((withPrev df).get ⟨i, h⟩).1
      ((withPrev df).get ⟨i, h⟩).2 = none) :
    ∃ hlen : i < (preprocess_scan_logs dist df).length,
      ((preprocess_scan_logs dist df).get ⟨i, hlen⟩).scan_interval_hours =
        globalMaxInterval df := by
  have hlen : i < (preprocess_scan_logs dist df).length := by
    simpa [preprocess_scan_logs] using h
  refine ⟨hlen, ?_⟩
  unfold preprocess_scan_logs
  simp only [List.get_eq_getElem, List.getElem_map]
  show (match rawInterval ((withPrev df)[i]).1 ((withPrev df)[i]).2 with
        | some v => some v
        | none => globalMaxInterval df) = globalMaxInterval df
  rw [show ((withPrev df)[i] : ScanRow × Option ℚ) = (withPrev df).get ⟨i, h⟩ from rfl,
    hnone]

/-- Witness for `fillna_is_global_max`: the first sorted record of
`twoBatchScans` has an undefined raw interval and receives the global
maximum. -/
theorem fillna_is_global_max_witness :
    ∃ hlen : 0 < (preprocess_scan_logs (fun _ _ => 0) twoBatchScans).length,
      ((preprocess_scan_logs (fun _ _ => 0) twoBatchScans).get
        ⟨0, hlen⟩).scan_interval_hours = globalMaxInterval twoBatchScans :=
  fillna_is_global_max (fun _ _ => 0) twoBatchScans 0
    (by norm_num [withPrev, sortScans, List.insertionSort, List.orderedInsert,
      scanLE_iff, addPrevTime, twoBatchScans])
    (by norm_num [withPrev, sortScans, List.insertionSort, List.orderedInsert,
      scanLE_iff, addPrevTime, rawInterval, twoBatchScans])

/-- A batch with a single scan. -/
def singletonScan : List ScanRow := [⟨7, 0, 1, 2, "R1"⟩]

/-- C2, counterexample.  When every partition has exactly one event, every
raw interval is NaN, so `df['scan_interval_hours'].max()` is itself NaN and
`fillna` leaves the column NaN: the output of `preprocess_scan_logs` on a
single-scan frame has an undefined `scan_interval_hours`. -/
theorem preprocess_singleton_interval_nan :
    (preprocess_scan_logs (fun _ _ => 0) singletonScan).map
      (fun r => (r.batch_id, r.scan_interval_hours, r.distance_km)) =
      [(7, none, some 0)] := by
  norm_num [preprocess_scan_logs, withPrev, sortScans, List.insertionSort,
    List.orderedInsert, scanLE_iff, addPrevTime, globalMaxInterval,
    rawInterval, mkOutRow, compute_distance, List.max?, List.filterMap,
    Option.map, registered_retailers, singletonScan]

/-- C2, amended: `distance_km` is always defined; `scan_interval_hours` is
defined for every output record provided at least one record has a
predecessor in its partition (some partition holds at least two events) —
with all-singleton partitions the interval column stays NaN. -/
theorem preprocess_no_nan (dist : ℚ × ℚ → ℚ × ℚ → ℚ) (df : List ScanRow) :
    (∀ r ∈ preprocess_scan_logs dist df, r.distance_km ≠ none) ∧
    ((∃ x ∈ withPrev df, x.2 ≠ none) →
      ∀ r ∈ preprocess_scan_logs dist df, r.scan_interval_hours ≠ none) :=
  ⟨preprocess_distance_ne_none dist df,
    fun h => preprocess_interval_ne_none dist df h⟩

/-- Witness for `preprocess_no_nan` on `twoBatchScans`, whose second sorted
record has a predecessor. -/
theorem preprocess_no_nan_witness :
    ∀ r ∈ preprocess_scan_logs (fun _ _ => 0) twoBatchScans,
      r.scan_interval_hours ≠ none :=
  (preprocess_no_nan (fun _ _ => 0) twoBatchScans).2
    ⟨(⟨1, 36000, 11, 21, "R2"⟩, some 0),
      by norm_num [withPrev, sortScans, List.insertionSort, List.orderedInsert,
        scanLE_iff, addPrevTime, twoBatchScans],
      by simp⟩

lemma addPrevTime_length :
    ∀ (l : List ScanRow) (seen : ℕ → Option ℚ),
      (addPrevTime seen l).length = l.length := by
  intro l
  induction l with
  | nil => intro seen; rfl
  | cons r rs ih => intro seen; simp [addPrevTime, ih]

/-- The value `groupby('batch_id')['timestamp'].shift(1)` assigns at one
position: the last timestamp of batch `b` among the rows before it (starting
from the ambient `seen` map). -/
def lastTS (seen : ℕ → Option ℚ) (pre : List ScanRow) (b : ℕ) : Option ℚ :=
  pre.foldl (fun acc r => if b = r.batch_id then some r.timestamp else acc) (seen b)

lemma addPrevTime_get :
    ∀ (l : List ScanRow) (seen : ℕ → Option ℚ) (i : ℕ) (h : i < l.length),
      (addPrevTime seen l).get ⟨i, by rw [addPrevTime_length]; exact h⟩ =
        (l.get ⟨i, h⟩, lastTS seen (l.take i) (l.get ⟨i, h⟩).batch_id) := by
  intro l
  induction l with
  | nil => intro seen i h; simp at h
  | cons r rs ih =>
    intro seen i h
    cases i with
    | zero => rfl
    | succ j =>
      have hj : j < rs.length := by simpa using h
      have hstep :=
        ih (fun b => if b = r.batch_id then some r.timestamp else seen b) j hj
      exact hstep

lemma lastTS_eq_none :
    ∀ (pre : List ScanRow) (seen : ℕ → Option ℚ) (b : ℕ),
      seen b = none → (∀ q ∈ pre, q.batch_id ≠ b) → lastTS seen pre b = none := by
  intro pre
  induction pre with
  | nil => intro seen b h _; simpa [lastTS] using h
  | cons r pre ih =>
    intro seen b h hall
    have hr : r.batch_id ≠ b := hall r (List.mem_cons_self _ _)
    show lastTS (fun c => if c = r.batch_id then some r.timestamp else seen c) pre b = none
    refine ih _ b ?_ (fun q hq => hall q (List.mem_cons_of_mem _ hq))
    rw [if_neg (fun hc => hr hc.symm)]
    exact h

/-- C6: the first chronological record of every per-batch partition (no
earlier record of the same batch in the sorted frame) has
`distance_km = 0`, for every distance function — hence regardless of its
actual coordinates. -/
theorem first_of_partition_distance_zero (dist : ℚ × ℚ → ℚ × ℚ → ℚ)
    (df : List ScanRow) (i : ℕ) (h : i < (sortScans df).length)
    (hfirst : ∀ j (hj : j < i),
      ((sortScans df).get ⟨j, hj.trans h⟩).batch_id ≠
        ((sortScans df).get ⟨i, h⟩).batch_id) :
    ∃ hlen : i < (preprocess_scan_logs dist df).length,
      ((preprocess_scan_logs dist df).get ⟨i, hlen⟩).distance_km = some 0 := by
  have hw : i < (withPrev df).length := by
    rw [withPrev, addPrevTime_length]
    exact h
  have hlen : i < (preprocess_scan_logs dist df).length := by
    simpa [preprocess_scan_logs] using hw
  refine ⟨hlen, ?_⟩
  have hget : (withPrev df).get ⟨i, hw⟩ =
      ((sortScans df).get ⟨i, h⟩,
        lastTS (fun _ => none) ((sortScans df).take i)
          (((sortScans df).get ⟨i, h⟩).batch_id)) :=
    addPrevTime_get (sortScans df) (fun _ => none) i h
  have hnone : lastTS (fun _ => none) ((sortScans df).take i)
      (((sortScans df).get ⟨i, h⟩).batch_id) = none := by
    refine lastTS_eq_none _ _ _ rfl ?_
    intro q hq
    rcases List.mem_take_iff_getElem.mp hq with ⟨j, hj, hq'⟩
    have hji : j < i := lt_of_lt_of_le hj (min_le_left _ _)
    have hne := hfirst j hji
    rw [List.get_eq_getElem] at hne
    rw [← hq']
    exact hne
  unfold preprocess_scan_logs
  simp only [List.get_eq_getElem, List.getElem_map]
  show compute_distance dist (sortScans df) ((withPrev df)[i]).1
      ((withPrev df)[i]).2 = some 0
  rw [show ((withPrev df)[i] : ScanRow × Option ℚ) =
      (withPrev df).get ⟨i, hw⟩ from rfl, hget, hnone]
  rfl

/-- Witness for `first_of_partition_distance_zero`: a single scan with
nonzero coordinates and a constant distance function of 42 still gets
distance 0. -/
theorem first_of_partition_distance_zero_witness :
    ∃ hlen : 0 < (preprocess_scan_logs (fun _ _ => 42) singletonScan).length,
      ((preprocess_scan_logs (fun _ _ => 42) singletonScan).get
        ⟨0, hlen⟩).distance_km = some 0 :=
  first_of_partition_distance_zero (fun _ _ => 42) singletonScan 0
    (by norm_num [sortScans, List.insertionSort, singletonScan])
    (fun j hj => absurd hj (Nat.not_lt_zero j))

/-- `True` exactly on the records of batch `b` at timestamp `t`: one exact
sort-key class. -/
def keyMatch (b : ℕ) (t : ℚ) (r : ScanRow) : Bool :=
  r.batch_id == b && r.timestamp == t

lemma keyMatch_iff (b : ℕ) (t : ℚ) (r : ScanRow) :
    keyMatch b t r = true ↔ scanKey r = toLex (b, t) := by
  simp [keyMatch, scanKey, toLex_inj, Prod.ext_iff]

/-- Stability of the sort: the subsequence of records sharing one exact
sort key is preserved from the input. -/
lemma insertionSort_filter_keyMatch (b : ℕ) (t : ℚ) :
    ∀ l : List ScanRow,
      (List.insertionSort scanLE l).filter (keyMatch b t) =
        l.filter (keyMatch b t) := by
  intro l
  induction l with
  | nil => rfl
  | cons a l ih =>
    have hsum :
        ((List.insertionSort scanLE l).takeWhile
            fun c => decide ¬scanLE a c).filter (keyMatch b t) ++
          ((List.insertionSort scanLE l).dropWhile
            fun c => decide ¬scanLE a c).filter (keyMatch b t) =
          l.filter (keyMatch b t) := by
      rw [← List.filter_append, List.takeWhile_append_dropWhile, ih]
    rw [List.insertionSort, List.orderedInsert_eq_take_drop, List.filter_append,
      List.filter_cons, List.filter_cons]
    by_cases ha : keyMatch b t a = true
    · have hk : scanKey a = toLex (b, t) := (keyMatch_iff b t a).mp ha
      have htake :
          ((List.insertionSort scanLE l).takeWhile
            fun c => decide ¬scanLE a c).filter (keyMatch b t) = [] := by
        rw [List.filter_eq_nil_iff]
        intro x hx hmx
        have h1 : ¬ scanLE a x := by simpa using List.mem_takeWhile_imp hx
        have h2 : scanKey x < scanKey a := not_le.mp h1
        have h3 : scanKey x = toLex (b, t) := (keyMatch_iff b t x).mp hmx
        rw [h3, hk] at h2
        exact lt_irrefl _ h2
      rw [htake] at hsum
      rw [htake, if_pos ha, if_pos ha, List.nil_append]
      rw [List.nil_append] at hsum
      rw [hsum]
    · rw [if_neg ha, if_neg ha, hsum]

/-- C7: the per-partition ordering is deterministic.  The sorted frame is
sorted under the lexicographic (batch, timestamp) order; an exact-key class
of records (same batch, same timestamp) keeps its relative input order
(stable sort); and within one batch, positions increase only with
non-decreasing timestamps.  Determinism itself is inherent: `sortScans` and
`preprocess_scan_logs` are functions of the input list. -/
theorem sort_deterministic_and_stable (df : List ScanRow) :
    List.Sorted scanLE (sortScans df) ∧
    (∀ b t, (sortScans df).filter (keyMatch b t) = df.filter (keyMatch b t)) ∧
    (∀ (i j : ℕ) (ri rj : ScanRow), i ≤ j → (sortScans df)[i]? = some ri →
      (sortScans df)[j]? = some rj → ri.batch_id = rj.batch_id →
      ri.timestamp ≤ rj.timestamp) := by
  refine ⟨List.sorted_insertionSort scanLE df,
    fun b t => insertionSort_filter_keyMatch b t df, ?_⟩
  intro i j ri rj hij hi hj hbatch
  rcases List.getElem?_eq_some.mp hi with ⟨hilen, hri⟩
  rcases List.getElem?_eq_some.mp hj with ⟨hjlen, hrj⟩
  rcases Nat.lt_or_ge i j with hlt | hge
  · have hrel : scanLE ((sortScans df).get ⟨i, hilen⟩) ((sortScans df).get ⟨j, hjlen⟩) :=
      List.Sorted.rel_get_of_lt (List.sorted_insertionSort scanLE df) hlt
    rw [List.get_eq_getElem, hri, List.get_eq_getElem, hrj] at hrel
    rcases (Prod.Lex.le_iff _ _).mp hrel with hcase | hcase
    · exact absurd hcase (by rw [hbatch]; exact lt_irrefl _)
    · exact hcase.2
  · have hji : j = i := le_antisymm (le_of_not_lt (fun hc => absurd hc (not_lt.mpr hge))) hij
    subst hji
    rw [hi] at hj
    injection hj with hj
    rw [hj]

/-- Witness for `sort_deterministic_and_stable`: in the sorted
`twoBatchScans` the two batch-1 records are adjacent and time-ordered. -/
theorem sort_deterministic_and_stable_witness :
    (⟨1, 0, 10, 20, "R1"⟩ : ScanRow).timestamp ≤
      (⟨1, 36000, 11, 21, "R2"⟩ : ScanRow).timestamp :=
  (sort_deterministic_and_stable twoBatchScans).2.2 0 1 _ _ (by norm_num)
    (by norm_num [sortScans, List.insertionSort, List.orderedInsert,
      scanLE_iff, twoBatchScans])
    (by norm_num [sortScans, List.insertionSort, List.orderedInsert,
      scanLE_iff, twoBatchScans])
    rfl

/-! ## Harvest anomaly detection (`harvest_anomaly_detection/src`) -/

/-- One row of the harvest CSV (`load_harvest_data`).  `timestamp` is an
epoch instant; the ISO-calendar week/year extraction is an opaque
calendrical capability taken as a parameter below. -/
structure HarvestRow where
  farmer_id : ℕ
  plant_type : ℕ
  timestamp : ℤ
  quantity_harvested : ℚ
  region_id : ℕ
  geo_lat : ℚ
  geo_lon : ℚ
deriving DecidableEq

/-- One row of the herb-rules CSV (`load_herb_rules`): `approved_regions`
is parsed into a set; only membership is ever used, so a list models it. -/
structure RuleSpec where
  plant_type : ℕ
  max_quantity_per_week : ℚ
  approved_regions : List ℕ
deriving DecidableEq

/-- One row of the weekly aggregate `weekly_harvest` (groupby keys plus the
aggregated columns). -/
structure WeeklyRow where
  farmer_id : ℕ
  plant_type : ℕ
  year : ℕ
  week : ℕ
  quantity_harvested : ℚ
  region_id : ℕ
  geo_lat : ℚ
  geo_lon : ℚ
deriving DecidableEq

/-- `rule_based_anomalies_weekly` of `src/rules.py`: filter the rule frame
by plant type; if no row matches, the single violation
`'Unknown Plant Type'`; otherwise the checks use `values[0]`, the first
matching row, appending the over-quantity violation and then the
out-of-region violation. -/
def rule_based_anomalies_weekly (row : WeeklyRow) (herb_rules_df : List RuleSpec) :
    List String :=
  let herb_info := herb_rules_df.filter (fun h => h.plant_type == row.plant_type)
  match herb_info with
  | [] => ["Unknown Plant Type"]
  | h :: _ =>
      (if row.quantity_harvested > h.max_quantity_per_week
        then ["Over Quantity (" ++ toString row.plant_type ++ ")"] else []) ++
      (if row.region_id ∉ h.approved_regions
        then ["Outside Approved Region (" ++ toString row.plant_type ++ ")"] else [])

/-- The groupby key `(farmer_id, plant_type, year, week)` under the
lexicographic order pandas sorts group keys by. -/
abbrev HKey := ℕ ×ₗ (ℕ ×ₗ (ℕ ×ₗ ℕ))

instance : DecidableRel (fun (a b : HKey) => a ≤ b) :=
  fun a b => inferInstanceAs (Decidable (a ≤ b))

/-- The groupby key of one harvest row, for given week/year extractors. -/
def harvestKey (isoWeek isoYear : ℤ → ℕ) (r : HarvestRow) : HKey :=
  toLex (r.farmer_id, toLex (r.plant_type, toLex (isoYear r.timestamp, isoWeek r.timestamp)))

/-- `groupby(['farmer_id','plant_type','year','week']).agg({...}).reset_index()`:
one output row per distinct key, keys sorted ascending (pandas sorts group
keys), quantity summed, region first, coordinates averaged over the group
in input order. -/
def aggregateWeekly (isoWeek isoYear : ℤ → ℕ) (rows : List HarvestRow) :
    List WeeklyRow :=
  let keys := List.insertionSort (fun (a b : HKey) => a ≤ b)
    ((rows.map (harvestKey isoWeek isoYear)).dedup)
  keys.map (fun k =>
    let grp := rows.filter (fun r => harvestKey isoWeek isoYear r == k)
    { farmer_id := (ofLex k).1
      plant_type := (ofLex (ofLex k).2).1
      year := (ofLex (ofLex (ofLex k).2).2).1
      week := (ofLex (ofLex (ofLex k).2).2).2
      quantity_harvested := (grp.map (fun r => r.quantity_harvested)).sum
      region_id := ((grp.head?).map (fun r => r.region_id)).getD 0
      geo_lat := (grp.map (fun r => r.geo_lat)).sum / (grp.length : ℚ)
      geo_lon := (grp.map (fun r => r.geo_lon)).sum / (grp.length : ℚ) })

/-- The final-flag lambda of `detect_weekly_anomalies`
(`anomaly_detection.py` lines 46–49): `1` iff the rule-violation list is
non-empty **or** the (mapped) Isolation Forest label is `1` (OUTLIER). -/
def finalAnomalyFlag (rule_anomalies : List String) (iforest_anomaly : ℕ) : ℕ :=
  if rule_anomalies.length > 0 ∨ iforest_anomaly = 1 then 1 else 0

/-- One row of the frame returned by `detect_weekly_anomalies`. -/
structure ResultRow where
  farmer_id : ℕ
  plant_type : ℕ
  year : ℕ
  week : ℕ
  quantity_harvested : ℚ
  region_id : ℕ
  geo_lat : ℚ
  geo_lon : ℚ
  rule_anomalies : List String
  iforest_anomaly : ℕ
  final_anomaly : ℕ
deriving DecidableEq

/-- The caller-visible harvest DataFrame object: its rows plus the `week`
and `year` columns, which do not exist until `detect_weekly_anomalies`
assigns them (`df_harvest['week'] = ...` mutates the caller's frame). -/
structure HarvestDF where
  rows : List HarvestRow
  week_col : Option (List ℕ)
  year_col : Option (List ℕ)
deriving DecidableEq

/-- `detect_weekly_anomalies` of `src/anomaly_detection.py`, parameterised
by the ISO-calendar extractors, the `log1p` transform and the composed
StandardScaler + Isolation Forest predictor (`±1` per feature row) — opaque
numeric capabilities.  Returns the state of the input frame after the call
together with the result frame, making the in-place column assignments of
lines 17–18 visible. -/
def detect_weekly_anomalies (isoWeek isoYear : ℤ → ℕ) (log1p : ℚ → ℚ)
    (scalePredict : List (ℚ × ℚ × ℚ) → List ℤ) (df_harvest : HarvestDF)
    (herb_rules_df : List RuleSpec) : HarvestDF × List ResultRow :=
  let mutated : HarvestDF :=
    { df_harvest with
        week_col := some (df_harvest.rows.map (fun r => isoWeek r.timestamp))
        year_col := some (df_harvest.rows.map (fun r => isoYear r.timestamp)) }
  let weekly_harvest := aggregateWeekly isoWeek isoYear df_harvest.rows
  let ruleAnoms := weekly_harvest.map
    (fun row => rule_based_anomalies_weekly row herb_rules_df)
  let X := weekly_harvest.map
    (fun w => (log1p w.quantity_harvested, w.geo_lat, w.geo_lon))
  let preds := scalePredict X
  let iforest := preds.map (fun v => if v = -1 then (1 : ℕ) else 0)
  let results := ((weekly_harvest.zip ruleAnoms).zip iforest).map
    (fun x =>
      { farmer_id := x.1.1.farmer_id
        plant_type := x.1.1.plant_type
        year := x.1.1.year
        week := x.1.1.week
        quantity_harvested := x.1.1.quantity_harvested
        region_id := x.1.1.region_id
        geo_lat := x.1.1.geo_lat
        geo_lon := x.1.1.geo_lon
        rule_anomalies := x.1.2
        iforest_anomaly := x.2
        final_anomaly := finalAnomalyFlag x.1.2 x.2 })
  (mutated, results)

/-- Lines 36–37 of `scripts/train_model.py`:
`contamination = min(rule_violation_rate * 1.5, 0.5)`. -/
def estimate (rule_violation_rate : ℚ) : ℚ :=
  min (rule_violation_rate * 1.5) 0.5

/-- `1 if len(x) > 0 else 0`: the binarised rule label of
`evaluate.py`. -/
def rule_anomaly_flag (anoms : List String) : ℕ :=
  if anoms.length > 0 then 1 else 0

/-- Entries predicted/labelled positive (label `1`). -/
def posCount (l : List ℕ) : ℕ := (l.filter (fun v => v == 1)).length

/-- True positives of the binary comparison. -/
def truePos (y_true y_pred : List ℕ) : ℕ :=
  ((y_true.zip y_pred).filter (fun x => x.1 == 1 && x.2 == 1)).length

/-- False positives. -/
def falsePos (y_true y_pred : List ℕ) : ℕ :=
  ((y_true.zip y_pred).filter (fun x => !(x.1 == 1) && x.2 == 1)).length

/-- False negatives. -/
def falseNeg (y_true y_pred : List ℕ) : ℕ :=
  ((y_true.zip y_pred).filter (fun x => x.1 == 1 && !(x.2 == 1))).length

/-- `precision_score(y_true, y_pred, zero_division=0)`. -/
def precision_score (y_true y_pred : List ℕ) : ℚ :=
  if truePos y_true y_pred + falsePos y_true y_pred = 0 then 0
  else (truePos y_true y_pred : ℚ) /
    ((truePos y_true y_pred : ℚ) + (falsePos y_true y_pred : ℚ))

/-- `recall_score(y_true, y_pred, zero_division=0)`. -/
def recall_score (y_true y_pred : List ℕ) : ℚ :=
  if truePos y_true y_pred + falseNeg y_true y_pred = 0 then 0
  else (truePos y_true y_pred : ℚ) /
    ((truePos y_true y_pred : ℚ) + (falseNeg y_true y_pred : ℚ))

/-- `f1_score(y_true, y_pred, zero_division=0)`: the harmonic mean of
precision and recall, `0` when both vanish. -/
def f1_score (y_true y_pred : List ℕ) : ℚ :=
  let p := precision_score y_true y_pred
  let r := recall_score y_true y_pred
  if p + r = 0 then 0 else 2 * p * r / (p + r)

/-- The metric part of `evaluate_model` (`src/evaluate.py`): rule
violations binarised as ground truth, the Isolation Forest label as the
prediction; returns `(precision, recall, f1)`. -/
def evaluate_model (df_results : List (List String × ℕ)) : ℚ × ℚ × ℚ :=
  let y_true := df_results.map (fun x => rule_anomaly_flag x.1)
  let y_pred := df_results.map (fun x => x.2)
  (precision_score y_true y_pred, recall_score y_true y_pred,
    f1_score y_true y_pred)

/-- C3: `estimate` satisfies the `min(r * 1.5, 0.5)` formula for every rate,
is monotone non-decreasing, is bounded above by `0.5`, is non-negative on
non-negative rates (a rule-violation rate is a mean of 0/1 flags, hence
non-negative), and takes the three quoted values. -/
theorem estimate_formula_monotone_bounded :
    (∀ r : ℚ, estimate r = min (r * 1.5) 0.5) ∧
    (∀ r s : ℚ, r ≤ s → estimate r ≤ estimate s) ∧
    (∀ r : ℚ, 0 ≤ r → 0 ≤ estimate r) ∧
    (∀ r : ℚ, estimate r ≤ 0.5) ∧
    estimate 0 = 0 ∧ estimate 0.2 = 0.3 ∧ estimate 0.4 = 0.5 := by
  refine ⟨fun r => rfl, ?_, ?_, ?_, ?_, ?_, ?_⟩
  · intro r s h
    exact min_le_min (by nlinarith) le_rfl
  · intro r h
    exact le_min (by nlinarith) (by norm_num)
  · intro r
    exact min_le_right _ _
  · norm_num [estimate]
  · norm_num [estimate, min_def]
  · norm_num [estimate, min_def]

/-- Witness for `estimate_formula_monotone_bounded` at the concrete rate
pair `(0, 1)`. -/
theorem estimate_formula_monotone_bounded_witness :
    estimate 0 ≤ estimate 1 ∧ 0 ≤ estimate 1 :=
  ⟨estimate_formula_monotone_bounded.2.1 0 1 (by norm_num),
    estimate_formula_monotone_bounded.2.2.1 1 (by norm_num)⟩

/-- C4: the final flag is a strict logical OR of the two detection layers,
with the mapped Isolation Forest label `1` playing OUTLIER and `0` NORMAL;
the four truth-table entries quoted in the spec. -/
theorem final_flag_strict_or :
    (∀ (v : List String) (i : ℕ),
      finalAnomalyFlag v i = 1 ↔ (v ≠ [] ∨ i = 1)) ∧
    finalAnomalyFlag [] 0 = 0 ∧
    finalAnomalyFlag ["over-quantity"] 0 = 1 ∧
    finalAnomalyFlag [] 1 = 1 ∧
    finalAnomalyFlag ["x"] 1 = 1 := by
  refine ⟨?_, rfl, rfl, rfl, rfl⟩
  intro v i
  unfold finalAnomalyFlag
  split_ifs with h
  · simp only [true_iff]
    rcases h with h | h
    · exact Or.inl (by simpa using List.length_pos.mp h)
    · exact Or.inr h
  · constructor
    · intro hc
      exact absurd hc (by norm_num)
    · intro hc
      rcases hc with hc | hc
      · exact absurd (Or.inl (List.length_pos.mpr hc)) h
      · exact absurd (Or.inr hc) h

/-- C5: `rule_based_anomalies_weekly` is total by construction (a total
Lean function of its two arguments), and whenever no rule row matches the
record's plant type — in particular for the empty ruleset — it returns
exactly the single-element unknown-category list, with no quantity or
region check performed. -/
theorem rule_eval_unknown_on_no_match (row : WeeklyRow) (rules : List RuleSpec)
    (hnone : rules.filter (fun h => h.plant_type == row.plant_type) = []) :
    rule_based_anomalies_weekly row rules = ["Unknown Plant Type"] ∧
    rule_based_anomalies_weekly row [] = ["Unknown Plant Type"] := by
  constructor
  · simp [rule_based_anomalies_weekly, hnone]
  · rfl

/-- A concrete weekly record of plant type 3. -/
def exWeeklyRow : WeeklyRow := ⟨1, 3, 2024, 40, 120, 2, 10, 76⟩

/-- Witness for `rule_eval_unknown_on_no_match`: a ruleset whose only row
is for plant type 5 never matches plant type 3. -/
theorem rule_eval_unknown_on_no_match_witness :
    rule_based_anomalies_weekly exWeeklyRow [⟨5, 10, [1]⟩] =
      ["Unknown Plant Type"] ∧
    rule_based_anomalies_weekly exWeeklyRow [] = ["Unknown Plant Type"] :=
  rule_eval_unknown_on_no_match exWeeklyRow [⟨5, 10, [1]⟩] rfl

/-- C10: when several rule rows carry the record's plant type, evaluation
uses only the first matching row's threshold and regions (`values[0]`);
every later row — matching or not — is ignored. -/
theorem rule_eval_first_match_wins (row : WeeklyRow) (pre post : List RuleSpec)
    (spec : RuleSpec) (hmatch : spec.plant_type = row.plant_type)
    (hpre : ∀ h ∈ pre, h.plant_type ≠ row.plant_type) :
    rule_based_anomalies_weekly row (pre ++ spec :: post) =
      rule_based_anomalies_weekly row [spec] := by
  have hfpre : pre.filter (fun h => h.plant_type == row.plant_type) = [] := by
    rw [List.filter_eq_nil_iff]
    intro h hh
    simpa using hpre h hh
  simp [rule_based_anomalies_weekly, List.filter_append, hfpre,
    List.filter_cons, hmatch]

/-- Witness for `rule_eval_first_match_wins`: a duplicate, laxer rule for
plant type 2 placed after the strict one changes nothing. -/
theorem rule_eval_first_match_wins_witness :
    rule_based_anomalies_weekly ⟨1, 2, 2024, 40, 50, 1, 0, 0⟩
        [⟨2, 10, [1]⟩, ⟨2, 1000, [1]⟩] =
      rule_based_anomalies_weekly ⟨1, 2, 2024, 40, 50, 1, 0, 0⟩ [⟨2, 10, [1]⟩] :=
  rule_eval_first_match_wins ⟨1, 2, 2024, 40, 50, 1, 0, 0⟩ [] [⟨2, 1000, [1]⟩]
    ⟨2, 10, [1]⟩ rfl (fun h hh => absurd hh (List.not_mem_nil h))

/-- A one-row harvest frame, before any detection call: the `week` and
`year` columns do not exist yet. -/
def exHarvestDF : HarvestDF := ⟨[⟨1, 2, 0, 5, 3, 10, 20⟩], none, none⟩

/-- C8, counterexample: `detect_weekly_anomalies` mutates its input — lines
17–18 assign the `week` and `year` columns on the caller's frame in place,
so the frame object after the call differs from the frame passed in. -/
theorem detect_mutates_input_counterexample :
    (detect_weekly_anomalies (fun _ => 40) (fun _ => 2024) id
        (fun l => l.map (fun _ => 1)) exHarvestDF []).1 ≠ exHarvestDF := by
  intro hEq
  have h := congrArg HarvestDF.week_col hEq
  simp [detect_weekly_anomalies, exHarvestDF] at h

/-- C8, amended: the only mutation `detect_weekly_anomalies` performs on
its input frame is adding (or overwriting) the derived `week` and `year`
columns; the event rows themselves — every original column of every
record — are unchanged, and the weekly result is a fresh collection. -/
theorem detect_mutation_adds_only_week_year (isoWeek isoYear : ℤ → ℕ)
    (log1p : ℚ → ℚ) (scalePredict : List (ℚ × ℚ × ℚ) → List ℤ)
    (df : HarvestDF) (rules : List RuleSpec) :
    ((detect_weekly_anomalies isoWeek isoYear log1p scalePredict df rules).1).rows
        = df.rows ∧
    ((detect_weekly_anomalies isoWeek isoYear log1p scalePredict df rules).1).week_col
        = some (df.rows.map (fun r => isoWeek r.timestamp)) ∧
    ((detect_weekly_anomalies isoWeek isoYear log1p scalePredict df rules).1).year_col
        = some (df.rows.map (fun r => isoYear r.timestamp)) :=
  ⟨rfl, rfl, rfl⟩

/-- C9: the metric computation of `evaluate_model` follows the
`zero_division=0` convention — with zero predicted positives and zero true
positives, precision, recall and F1 all evaluate to `0`, and no
division-by-zero fault occurs (every quotient is guarded, and the functions
are total by construction). -/
theorem evaluate_model_zero_convention (df_results : List (List String × ℕ))
    (hpred : posCount (df_results.map (fun x => x.2)) = 0)
    (htrue : posCount (df_results.map (fun x => rule_anomaly_flag x.1)) = 0) :
    evaluate_model df_results = (0, 0, 0) := by
  have hall : ∀ (l : List ℕ), posCount l = 0 → ∀ v ∈ l, ¬ (v == 1) = true := by
    intro l hl v hv hc
    have hm : v ∈ l.filter (fun v => v == 1) := List.mem_filter.mpr ⟨hv, hc⟩
    rw [List.length_eq_zero.mp hl] at hm
    simp at hm
  have hpredall := hall _ hpred
  have htrueall := hall _ htrue
  have htp : truePos (df_results.map (fun x => rule_anomaly_flag x.1))
      (df_results.map (fun x => x.2)) = 0 := by
    rw [truePos, List.length_eq_zero, List.filter_eq_nil_iff]
    intro x hx hc
    exact hpredall x.2 (List.of_mem_zip hx).2 (Bool.and_elim_right hc)
  have hfp : falsePos (df_results.map (fun x => rule_anomaly_flag x.1))
      (df_results.map (fun x => x.2)) = 0 := by
    rw [falsePos, List.length_eq_zero, List.filter_eq_nil_iff]
    intro x hx hc
    exact hpredall x.2 (List.of_mem_zip hx).2 (Bool.and_elim_right hc)
  have hfn : falseNeg (df_results.map (fun x => rule_anomaly_flag x.1))
      (df_results.map (fun x => x.2)) = 0 := by
    rw [falseNeg, List.length_eq_zero, List.filter_eq_nil_iff]
    intro x hx hc
    exact htrueall x.1 (List.of_mem_zip hx).1 (Bool.and_elim_left hc)
  show (precision_score _ _, recall_score _ _, f1_score _ _) = (0, 0, 0)
  rw [precision_score, recall_score, f1_score]
  simp [precision_score, recall_score, htp, hfp, hfn]

/-- Witness for `evaluate_model_zero_convention`: one record with no rule
violations and a NORMAL prediction. -/
theorem evaluate_model_zero_convention_witness :
    evaluate_model [([], 0)] = (0, 0, 0) :=
  evaluate_model_zero_convention [([], 0)] rfl rfl

end SIH
